import Mathlib

/-!
Verification of the Conversational Interview System (AI_Interviewer).

Shallow embedding of the Python sources:
* `src/audio_manager.py`   — recording loop with silence detection,
* `src/ai_conversation_manager.py` — conversation state, intent analysis,
  dialogue policy (follow-up budget), interview-time bookkeeping,
* `src/llm_evaluator.py`   — evaluation parsing with fallback,
* `src/question_manager.py` — question bank loading, validation, selection,
* `web_server.py`          — session registry operations.

External collaborators (Deepgram, OpenAI, the wall clock, `random.choice`)
are modelled as explicit parameters: the free-text reply of a reasoning
call, a transcription result, the elapsed time, and the chooser index are
inputs to the embedded functions.
-/

namespace AIInterviewer

/-! ## Recording loop (`AudioManager._record_audio_thread`, src/audio_manager.py)

A frame is represented by its peak absolute amplitude (the Python code
computes `max(abs(sample) for sample in audio_samples)`, `0` for an empty
frame).  The list of amplitudes models the stream of frames read while
`is_recording` holds; exhaustion of the list models the recording flag
being cleared externally (`stop_recording`).  `thr` is the derived
`silence_threshold_frames` and `maxF` the derived `max_frames`. -/

/-- Why the recording loop stopped: silence detected (`silence_counter >
silence_threshold_frames`), the `frame_count < max_frames` guard failed,
or the input ended (external stop request). -/
inductive StopReason where
  | silence
  | capReached
  | stopRequested
deriving DecidableEq, Repr

/-- Fixed amplitude threshold of the silence check (`if amplitude < 1000`
in `_record_audio_thread`). -/
def amplitudeThreshold : Nat := 1000

/-- Derived frame-count threshold
`int(silence_threshold * sample_rate / chunk_size)` (for the default
integral `silence_threshold`, integer floor division). -/
def silence_threshold_frames (silence_threshold sample_rate chunk_size : Nat) : Nat :=
  silence_threshold * sample_rate / chunk_size

/-- Derived hard cap `int(max_duration * sample_rate / chunk_size)`. -/
def max_frames (max_duration sample_rate chunk_size : Nat) : Nat :=
  max_duration * sample_rate / chunk_size

/-- One pass of the `while self.is_recording and frame_count < max_frames`
loop of `_record_audio_thread`, carrying the `silence_counter` `sc` and
`frame_count` `fc`.  Returns the final frame count together with the
reason the loop exited. -/
def recordLoop (thr maxF : Nat) (sc fc : Nat) : List Nat → Nat × StopReason
  | [] => (fc, .stopRequested)
  | a :: rest =>
    if fc < maxF then
      let fc' := fc + 1
      let sc' := if a < amplitudeThreshold then sc + 1 else 0
      if thr < sc' then (fc', .silence)
      else recordLoop thr maxF sc' fc' rest
    else (fc, .capReached)

/-- The recording loop started from a fresh state (`silence_counter = 0`,
`frame_count = 0`). -/
def recordFrames (thr maxF : Nat) (frames : List Nat) : Nat × StopReason :=
  recordLoop thr maxF 0 0 frames

/-! ## Interview timing (`ConversationState.get_remaining_time`,
`AIConversationManager.should_end_interview`,
src/ai_conversation_manager.py)

The elapsed time (minutes since `start_time`, computed by the code from
`datetime.now()`) is an input. -/

/-- `ConversationState.get_remaining_time`:
`max(0, self.duration_minutes - elapsed)`. -/
def get_remaining_time (duration_minutes elapsed : ℚ) : ℚ :=
  max 0 (duration_minutes - elapsed)

/-- `AIConversationManager.should_end_interview`:
`self.conversation_state.get_remaining_time() <= 1`. -/
def should_end_interview (duration_minutes elapsed : ℚ) : Bool :=
  get_remaining_time duration_minutes elapsed ≤ 1

/-! ### Lemmas about the recording loop -/

/-- The frame counter produced by the loop never exceeds `maxF`. -/
theorem recordLoop_fst_le (thr maxF : Nat) :
    ∀ (frames : List Nat) (sc fc : Nat), fc ≤ maxF →
      (recordLoop thr maxF sc fc frames).1 ≤ maxF := by
  intro frames
  induction frames with
  | nil => intro sc fc h; simpa [recordLoop] using h
  | cons a rest ih =>
    intro sc fc h
    by_cases hfc : fc < maxF
    · simp only [recordLoop, if_pos hfc]
      by_cases hs : thr < (if a < amplitudeThreshold then sc + 1 else 0)
      · simpa [hs] using hfc
      · simpa [hs] using ih _ (fc + 1) hfc
    · simpa [recordLoop, if_neg hfc] using h

/-- With only loud frames the silence counter never fires, so the loop
runs until the input or the frame budget is exhausted. -/
theorem recordLoop_loud (thr maxF : Nat) :
    ∀ (frames : List Nat) (sc fc : Nat),
      (∀ a ∈ frames, amplitudeThreshold ≤ a) →
      maxF ≤ fc + frames.length → fc ≤ maxF →
      (recordLoop thr maxF sc fc frames).1 = maxF := by
  intro frames
  induction frames with
  | nil =>
    intro sc fc _ hlen hle
    simp only [List.length_nil, Nat.add_zero] at hlen
    simp [recordLoop, Nat.le_antisymm hle hlen]
  | cons a rest ih =>
    intro sc fc hloud hlen hle
    by_cases hfc : fc < maxF
    · have ha : ¬ a < amplitudeThreshold :=
        Nat.not_lt.mpr (hloud a (List.mem_cons_self a rest))
      simp only [recordLoop, if_pos hfc, if_neg ha, if_neg (Nat.not_lt_zero thr)]
      refine ih 0 (fc + 1) (fun b hb => hloud b (List.mem_cons_of_mem a hb)) ?_ hfc
      simp only [List.length_cons] at hlen
      omega
    · simp only [recordLoop, if_neg hfc]
      omega

/-- With only silent frames the loop exits with the silence signal as soon
as the counter strictly exceeds `thr`: starting from counter `sc ≤ thr` it
consumes exactly `thr + 1 - sc` more frames. -/
theorem recordLoop_silent (thr maxF : Nat) :
    ∀ (frames : List Nat) (sc fc : Nat),
      (∀ a ∈ frames, a < amplitudeThreshold) →
      sc ≤ thr → fc + (thr + 1 - sc) ≤ maxF → thr + 1 - sc ≤ frames.length →
      recordLoop thr maxF sc fc frames = (fc + (thr + 1 - sc), .silence) := by
  intro frames
  induction frames with
  | nil =>
    intro sc fc _ hsc _ hlen
    simp only [List.length_nil] at hlen
    omega
  | cons a rest ih =>
    intro sc fc hsil hsc hcap hlen
    have hfc : fc < maxF := by omega
    have ha : a < amplitudeThreshold := hsil a (List.mem_cons_self a rest)
    simp only [recordLoop, if_pos hfc, if_pos ha]
    by_cases hs : thr < sc + 1
    · have : sc = thr := by omega
      simp only [if_pos hs]
      subst this
      simp
    · simp only [if_neg hs]
      have hrec := ih (sc + 1) (fc + 1)
        (fun b hb => hsil b (List.mem_cons_of_mem a hb))
        (by omega) (by omega)
        (by simp only [List.length_cons] at hlen; omega)
      rw [hrec]
      have : fc + 1 + (thr + 1 - (sc + 1)) = fc + (thr + 1 - sc) := by omega
      rw [this]

/-! ### Claims C4 and C5 -/

/-- Claim C4, counterexample: with the default configuration
(`SILENCE_THRESHOLD = 2.0` s, `SAMPLE_RATE = 16000`, `CHUNK_SIZE = 1024`,
`MAX_RECORDING_DURATION = 60` s) the derived silence threshold is 31
frames, but a stream of exactly 31 consecutive silent frames does NOT
trigger the silence signal (the loop only breaks when the counter
strictly exceeds the threshold): 32 silent frames are required, and then
the loop reports 32 frames, not 31. -/
theorem claim_C4_counterexample :
    silence_threshold_frames 2 16000 1024 = 31 ∧
    max_frames 60 16000 1024 = 937 ∧
    (recordFrames 31 937 (List.replicate 31 0)).2 ≠ StopReason.silence ∧
    recordFrames 31 937 (List.replicate 32 0) = (32, StopReason.silence) := by
  decide

/-- Claim C4 (amended): for every frame sequence whose every peak
amplitude is below the fixed threshold 1000, the recording loop signals
end-of-utterance after exactly `thr + 1` consecutive silent frames, where
`thr = floor(silence_duration_seconds * sample_rate / frame_size)` is the
derived threshold — one more frame than the derived threshold, because
the loop breaks only when the counter strictly exceeds it.  The counter
is incremented on each sub-threshold frame and reset to zero on louder
frames (`recordLoop` branches). -/
theorem claim_C4 (st sr cs md : Nat) (frames : List Nat)
    (hsil : ∀ a ∈ frames, a < amplitudeThreshold)
    (hlen : silence_threshold_frames st sr cs + 1 ≤ frames.length)
    (hcap : silence_threshold_frames st sr cs + 1 ≤ max_frames md sr cs) :
    recordFrames (silence_threshold_frames st sr cs) (max_frames md sr cs) frames
      = (silence_threshold_frames st sr cs + 1, StopReason.silence) := by
  have h := recordLoop_silent (silence_threshold_frames st sr cs)
    (max_frames md sr cs) frames 0 0 hsil (Nat.zero_le _)
    (by omega) (by omega)
  simpa [recordFrames] using h

/-- Claim C4 witness: a concrete all-silent run with the default derived
configuration hits the silence signal at frame 32. -/
theorem claim_C4_witness :
    recordFrames (silence_threshold_frames 2 16000 1024) (max_frames 60 16000 1024)
        (List.replicate 32 0)
      = (silence_threshold_frames 2 16000 1024 + 1, StopReason.silence) :=
  claim_C4 2 16000 1024 60 (List.replicate 32 0)
    (by decide) (by decide) (by decide)

/-- Claim C5: the recording loop never reads more than the derived
`max_frames` frames, and on a sequence of at least `max_frames` frames
that are all loud (amplitude at or above the threshold, so the silence
branch never fires) it terminates at exactly `max_frames` frames. -/
theorem claim_C5 (md sr cs thr : Nat) (frames : List Nat) :
    (recordFrames thr (max_frames md sr cs) frames).1 ≤ max_frames md sr cs
    ∧ ((∀ a ∈ frames, amplitudeThreshold ≤ a) →
        max_frames md sr cs ≤ frames.length →
        (recordFrames thr (max_frames md sr cs) frames).1 = max_frames md sr cs) := by
  constructor
  · exact recordLoop_fst_le thr (max_frames md sr cs) frames 0 0 (Nat.zero_le _)
  · intro hloud hlen
    exact recordLoop_loud thr (max_frames md sr cs) frames 0 0 hloud
      (by omega) (Nat.zero_le _)

/-- Claim C5 witness: with `max_frames 1 2 1 = 2`, three loud frames are
cut off after exactly two frames. -/
theorem claim_C5_witness :
    (recordFrames 31 (max_frames 1 2 1) [1000, 1000, 1000]).1 = max_frames 1 2 1 :=
  (claim_C5 1 2 1 31 [1000, 1000, 1000]).2 (by decide) (by decide)

/-! ### Claim C2 -/

/-- Claim C2: `get_remaining_time` is `max(0, duration - elapsed)` and
`should_end_interview` is true exactly when that remaining time is at
most one minute, false whenever it is strictly greater. -/
theorem claim_C2 (d e : ℚ) :
    get_remaining_time d e = max 0 (d - e)
    ∧ (should_end_interview d e = true ↔ get_remaining_time d e ≤ 1)
    ∧ (1 < get_remaining_time d e → should_end_interview d e = false) := by
  refine ⟨rfl, ?_, ?_⟩
  · simp [should_end_interview]
  · intro h
    simp only [should_end_interview, decide_eq_false_iff_not]
    exact not_le.mpr h

/-- Claim C2 witness: with one minute remaining the interview ends; with
25 minutes remaining it does not. -/
theorem claim_C2_witness :
    should_end_interview 30 29 = true ∧ should_end_interview 30 5 = false := by
  constructor
  · exact (claim_C2 30 29).2.1.mpr (by norm_num [get_remaining_time])
  · exact (claim_C2 30 5).2.2 (by norm_num [get_remaining_time])

/-! ## Conversation manager (`src/ai_conversation_manager.py`)

The reasoning collaborator (`llm.generate_response_sync`) is external: its
outcome is modelled as either a free-text reply or a raised exception. -/

/-- Outcome of one external reasoning call: free text, or an exception. -/
inductive LLMResult where
  | ok (text : String)
  | failure
deriving DecidableEq

/-- Python `str.lower()` (ASCII case mapping) on the character
sequence. -/
def pyLower (s : String) : String :=
  String.mk (s.data.map Char.toLower)

/-- Python `str.strip()`: removes leading and trailing whitespace. -/
def pyStrip (s : String) : String :=
  String.mk
    (((s.data.dropWhile Char.isWhitespace).reverse.dropWhile Char.isWhitespace).reverse)

/-- Python `sub in s` substring test on the character sequences. -/
def containsSub (s sub : String) : Bool :=
  decide (sub.data <:+: s.data)

/-- `AIConversationManager._analyze_intent`: the reply is stripped and
lowercased, then matched against the category keywords in priority order
`asking`, `clarification`, `confused`/`stuck`, defaulting to
`answering_question`; any exception of the external call also yields
`answering_question`. -/
def analyze_intent (r : LLMResult) : String :=
  match r with
  | .failure => "answering_question"
  | .ok text =>
    let intent := pyLower (pyStrip text)
    if containsSub intent "asking" then "asking_question"
    else if containsSub intent "clarification" then "seeking_clarification"
    else if containsSub intent "confused" || containsSub intent "stuck" then
      "confused_or_stuck"
    else "answering_question"

/-- `AIConversationManager._should_follow_up`: the decision reply is
stripped and lowercased; any reply containing `follow` means
`follow_up`, anything else — including an exception — means
`new_question`. -/
def should_follow_up (r : LLMResult) : String :=
  match r with
  | .failure => "new_question"
  | .ok text =>
    if containsSub (pyLower (pyStrip text)) "follow" then "follow_up"
    else "new_question"

/-- The fields of `ConversationState` that the dialogue policy reads and
writes (`src/ai_conversation_manager.py`, class `ConversationState`). -/
structure ConversationState where
  current_question : Option String
  awaiting_answer : Bool
  follow_up_count : Nat
  max_follow_ups : Nat
  questions_asked : Nat
deriving DecidableEq

/-- `ConversationState.__init__` defaults. -/
def ConversationState.init : ConversationState :=
  { current_question := none
    awaiting_answer := true
    follow_up_count := 0
    max_follow_ups := 3
    questions_asked := 0 }

/-- Kind of the response dictionary built by the conversation manager
(its `type` entry). -/
inductive RespKind where
  | question
  | followUp
  | guidance
  | clarification
deriving DecidableEq

/-- `AIConversationManager._generate_follow_up`: increments
`follow_up_count` and emits a follow-up response (the generated text is
external and irrelevant to the state). -/
def generate_follow_up (s : ConversationState) : ConversationState × RespKind :=
  ({ s with follow_up_count := s.follow_up_count + 1 }, .followUp)

/-- `AIConversationManager._generate_first_question`: installs the
generated text `q` as current question, counts it, and awaits an
answer. -/
def generate_first_question (q : String) (s : ConversationState) :
    ConversationState × RespKind :=
  ({ s with current_question := some q
            questions_asked := s.questions_asked + 1
            awaiting_answer := true }, .question)

/-- `AIConversationManager._generate_next_question`: same state update as
the first question. -/
def generate_next_question (q : String) (s : ConversationState) :
    ConversationState × RespKind :=
  ({ s with current_question := some q
            questions_asked := s.questions_asked + 1
            awaiting_answer := true }, .question)

/-- `AIConversationManager._handle_answer`: with no current question the
first question is generated; otherwise the evaluated answer leads to a
follow-up exactly when the external decision is the string `follow_up`
and the follow-up budget is not exhausted, and otherwise the counter is
reset to zero and a new top-level question is generated.  `decision` is
the result of `_should_follow_up` and `newq` the externally generated
question text. -/
def handle_answer (decision : String) (newq : String) (s : ConversationState) :
    ConversationState × RespKind :=
  match s.current_question with
  | none => generate_first_question newq s
  | some _ =>
    if decision = "follow_up" ∧ s.follow_up_count < s.max_follow_ups then
      generate_follow_up s
    else
      generate_next_question newq { s with follow_up_count := 0 }

/-- A sequence of evaluated answers: each element carries the external
follow-up decision and the externally generated question text for that
turn.  Returns the emitted response kinds in order, and the final
state. -/
def handle_run (s : ConversationState) :
    List (String × String) → List RespKind × ConversationState
  | [] => ([], s)
  | (d, nq) :: rest =>
    let step := handle_answer d nq s
    let tail := handle_run step.1 rest
    (step.2 :: tail.1, tail.2)

/-! ### Lemmas about the dialogue policy -/

/-- Unfolding of `_handle_answer` on a state with a current question. -/
theorem handle_answer_some (d nq : String) (s : ConversationState) (q : String)
    (hq : s.current_question = some q) :
    handle_answer d nq s =
      if d = "follow_up" ∧ s.follow_up_count < s.max_follow_ups then
        generate_follow_up s
      else generate_next_question nq { s with follow_up_count := 0 } := by
  unfold handle_answer
  rw [hq]

/-- One `_handle_answer` step on a state with a current question keeps a
current question, keeps the counter within the budget, and never changes
the budget itself. -/
theorem handle_answer_inv (d nq : String) (s : ConversationState) (q : String)
    (hq : s.current_question = some q)
    (_hle : s.follow_up_count ≤ s.max_follow_ups) :
    (∃ q', (handle_answer d nq s).1.current_question = some q')
    ∧ (handle_answer d nq s).1.follow_up_count
        ≤ (handle_answer d nq s).1.max_follow_ups
    ∧ (handle_answer d nq s).1.max_follow_ups = s.max_follow_ups := by
  by_cases hc : d = "follow_up" ∧ s.follow_up_count < s.max_follow_ups
  · obtain ⟨hd, hlt⟩ := hc
    rw [handle_answer_some d nq s q hq, if_pos ⟨hd, hlt⟩]
    refine ⟨⟨q, hq⟩, ?_, rfl⟩
    show s.follow_up_count + 1 ≤ s.max_follow_ups
    omega
  · rw [handle_answer_some d nq s q hq, if_neg hc]
    refine ⟨⟨nq, rfl⟩, ?_, rfl⟩
    show (0 : Nat) ≤ s.max_follow_ups
    omega

/-- A `_handle_answer` step on a state with a current question emits a
follow-up exactly when the decision is `follow_up` and the budget is not
exhausted; in that case the counter increments, otherwise it resets and a
question is emitted. -/
theorem handle_answer_cases (d nq : String) (s : ConversationState) (q : String)
    (hq : s.current_question = some q) :
    ((handle_answer d nq s).2 = RespKind.followUp ↔
      d = "follow_up" ∧ s.follow_up_count < s.max_follow_ups)
    ∧ ((handle_answer d nq s).2 = RespKind.followUp →
        (handle_answer d nq s).1.follow_up_count = s.follow_up_count + 1)
    ∧ (¬ (d = "follow_up" ∧ s.follow_up_count < s.max_follow_ups) →
        (handle_answer d nq s).1.follow_up_count = 0
        ∧ (handle_answer d nq s).2 = RespKind.question) := by
  by_cases hc : d = "follow_up" ∧ s.follow_up_count < s.max_follow_ups
  · obtain ⟨hd, hlt⟩ := hc
    rw [handle_answer_some d nq s q hq, if_pos ⟨hd, hlt⟩]
    exact ⟨⟨fun _ => ⟨hd, hlt⟩, fun _ => rfl⟩, fun _ => rfl,
      fun h => absurd ⟨hd, hlt⟩ h⟩
  · rw [handle_answer_some d nq s q hq, if_neg hc]
    refine ⟨⟨fun h => RespKind.noConfusion h, fun h => absurd h hc⟩,
      fun h => RespKind.noConfusion h, fun _ => ⟨rfl, rfl⟩⟩

/-- The run emits one response per evaluated answer. -/
theorem handle_run_length (inputs : List (String × String)) :
    ∀ s : ConversationState, (handle_run s inputs).1.length = inputs.length := by
  induction inputs with
  | nil => intro s; rfl
  | cons p rest ih => intro s; simp [handle_run, ih]

/-- Runs compose: the outputs of a concatenated input list are the outputs
of the first part followed by the outputs of the second part from the
intermediate state. -/
theorem handle_run_append (l1 l2 : List (String × String)) :
    ∀ s : ConversationState,
      (handle_run s (l1 ++ l2)).1
        = (handle_run s l1).1 ++ (handle_run (handle_run s l1).2 l2).1
      ∧ (handle_run s (l1 ++ l2)).2 = (handle_run (handle_run s l1).2 l2).2 := by
  induction l1 with
  | nil => intro s; simp [handle_run]
  | cons p rest ih =>
    intro s
    obtain ⟨d, nq⟩ := p
    simp only [List.cons_append, handle_run, List.append_eq]
    exact ⟨by rw [(ih _).1], (ih _).2⟩

/-- The step invariant transported along a whole run. -/
theorem handle_run_inv (inputs : List (String × String)) :
    ∀ (s : ConversationState) (q : String), s.current_question = some q →
      s.follow_up_count ≤ s.max_follow_ups →
      (∃ q', (handle_run s inputs).2.current_question = some q')
      ∧ (handle_run s inputs).2.follow_up_count
          ≤ (handle_run s inputs).2.max_follow_ups
      ∧ (handle_run s inputs).2.max_follow_ups = s.max_follow_ups := by
  induction inputs with
  | nil => intro s q hq hle; exact ⟨⟨q, hq⟩, hle, rfl⟩
  | cons p rest ih =>
    intro s q hq hle
    obtain ⟨d, nq⟩ := p
    simp only [handle_run]
    obtain ⟨⟨q', hq'⟩, hle', hmax'⟩ := handle_answer_inv d nq s q hq hle
    obtain ⟨hex, hle'', hmax''⟩ := ih (handle_answer d nq s).1 q' hq' hle'
    exact ⟨hex, hle'', hmax''.trans hmax'⟩

/-- The outputs of a run from a state with a current question and counter
`c ≤ m` never start with `m + 1 - c` consecutive follow-ups (where `m` is
the budget): each follow-up strictly increases the counter, which must
stay below the budget for the next follow-up to be emitted. -/
theorem handle_run_no_overrun (inputs : List (String × String)) :
    ∀ (s : ConversationState) (q : String), s.current_question = some q →
      s.follow_up_count ≤ s.max_follow_ups →
      ∀ t : List RespKind,
        (handle_run s inputs).1
          ≠ List.replicate (s.max_follow_ups + 1 - s.follow_up_count)
              RespKind.followUp ++ t := by
  induction inputs with
  | nil =>
    intro s q hq hle t h
    have hlen := congrArg List.length h
    simp only [handle_run, List.length_nil, List.length_append,
      List.length_replicate] at hlen
    omega
  | cons p rest ih =>
    intro s q hq hle t h
    obtain ⟨d, nq⟩ := p
    simp only [handle_run] at h
    have hk : s.max_follow_ups + 1 - s.follow_up_count
        = (s.max_follow_ups - s.follow_up_count) + 1 := by omega
    rw [hk, List.replicate_succ, List.cons_append] at h
    injection h with hhead htail
    obtain ⟨hiff, -, -⟩ := handle_answer_cases d nq s q hq
    obtain ⟨hd, hlt⟩ := hiff.mp hhead
    have hstep : handle_answer d nq s = generate_follow_up s := by
      rw [handle_answer_some d nq s q hq, if_pos ⟨hd, hlt⟩]
    rw [hstep] at htail
    have harg : (handle_run (generate_follow_up s).1 rest).1
        = List.replicate ((generate_follow_up s).1.max_follow_ups + 1
            - (generate_follow_up s).1.follow_up_count) RespKind.followUp ++ t := by
      rw [htail]
      have heq : (generate_follow_up s).1.max_follow_ups + 1
          - (generate_follow_up s).1.follow_up_count
          = s.max_follow_ups - s.follow_up_count := by
        show s.max_follow_ups + 1 - (s.follow_up_count + 1)
            = s.max_follow_ups - s.follow_up_count
        omega
      rw [heq]
    exact ih (generate_follow_up s).1 q hq
      (by show s.follow_up_count + 1 ≤ s.max_follow_ups; omega) t harg

/-! ### Claim C1 -/

/-- Claim C1: on every evaluated answer (a state with a current question),
`_handle_answer` issues a follow-up exactly when the external decision is
the string `follow_up` and `follow_up_count < max_follow_ups`; otherwise
it resets the counter to zero and emits a new top-level question.  The
counter increments on each follow-up, and consequently no run of
evaluated answers ever contains `max_follow_ups + 1` consecutive
follow-up responses. -/
theorem claim_C1 (s : ConversationState) (d nq q : String)
    (inputs : List (String × String))
    (hq : s.current_question = some q)
    (hle : s.follow_up_count ≤ s.max_follow_ups) :
    ((handle_answer d nq s).2 = RespKind.followUp ↔
      d = "follow_up" ∧ s.follow_up_count < s.max_follow_ups)
    ∧ ((handle_answer d nq s).2 = RespKind.followUp →
        (handle_answer d nq s).1.follow_up_count = s.follow_up_count + 1)
    ∧ (¬ (d = "follow_up" ∧ s.follow_up_count < s.max_follow_ups) →
        (handle_answer d nq s).1.follow_up_count = 0
        ∧ (handle_answer d nq s).2 = RespKind.question)
    ∧ ¬ ∃ pre post, (handle_run s inputs).1
        = pre ++ List.replicate (s.max_follow_ups + 1) RespKind.followUp ++ post := by
  obtain ⟨h1, h2, h3⟩ := handle_answer_cases d nq s q hq
  refine ⟨h1, h2, h3, ?_⟩
  rintro ⟨pre, post, hsplit⟩
  have hlen := congrArg List.length hsplit
  simp only [handle_run_length, List.length_append, List.length_replicate] at hlen
  have hpre_le : pre.length ≤ inputs.length := by omega
  have hdecomp := List.take_append_drop pre.length inputs
  have happ := handle_run_append (inputs.take pre.length) (inputs.drop pre.length) s
  rw [hdecomp] at happ
  have hlen1 : (handle_run s (inputs.take pre.length)).1.length = pre.length := by
    rw [handle_run_length, List.length_take]
    omega
  have hsplit' := hsplit
  rw [happ.1, List.append_assoc] at hsplit'
  obtain ⟨-, htail⟩ := List.append_inj hsplit' (by rw [hlen1])
  set s1 := (handle_run s (inputs.take pre.length)).2 with hs1
  obtain ⟨⟨q1, hq1⟩, hle1, hmax1⟩ :=
    handle_run_inv (inputs.take pre.length) s q hq hle
  have hcount1 : s1.follow_up_count ≤ s.max_follow_ups := hmax1 ▸ hle1
  have hrep : s.max_follow_ups + 1
      = (s1.max_follow_ups + 1 - s1.follow_up_count) + s1.follow_up_count := by
    rw [hmax1]; omega
  rw [hrep, List.replicate_add, List.append_assoc] at htail
  exact handle_run_no_overrun (inputs.drop pre.length) s1 q1 hq1 hle1 _ htail

/-- State used by the concrete C1 witness: the initial conversation state
with a current question installed. -/
def stateC1 : ConversationState :=
  { ConversationState.init with current_question := some "Q" }

/-- Claim C1 witness: with the decision `follow_up` and counter `0 < 3`, a
follow-up is emitted. -/
theorem claim_C1_witness :
    (handle_answer "follow_up" "next" stateC1).2 = RespKind.followUp :=
  (claim_C1 stateC1 "follow_up" "next" "Q" [] rfl (by decide)).1.mpr
    ⟨rfl, by decide⟩

/-! ### Claim C6 -/

/-- Claim C6: `_analyze_intent` matches the four category keywords on the
stripped, lowercased reply in the fixed priority order `asking` >
`clarification` > `confused`/`stuck` > default `answering_question`, and
maps every exception of the external call to `answering_question`. -/
theorem claim_C6 (text : String) :
    (containsSub (pyLower (pyStrip text)) "asking" = true →
      analyze_intent (.ok text) = "asking_question")
    ∧ (containsSub (pyLower (pyStrip text)) "asking" = false →
        containsSub (pyLower (pyStrip text)) "clarification" = true →
        analyze_intent (.ok text) = "seeking_clarification")
    ∧ (containsSub (pyLower (pyStrip text)) "asking" = false →
        containsSub (pyLower (pyStrip text)) "clarification" = false →
        (containsSub (pyLower (pyStrip text)) "confused" = true
          ∨ containsSub (pyLower (pyStrip text)) "stuck" = true) →
        analyze_intent (.ok text) = "confused_or_stuck")
    ∧ (containsSub (pyLower (pyStrip text)) "asking" = false →
        containsSub (pyLower (pyStrip text)) "clarification" = false →
        containsSub (pyLower (pyStrip text)) "confused" = false →
        containsSub (pyLower (pyStrip text)) "stuck" = false →
        analyze_intent (.ok text) = "answering_question")
    ∧ analyze_intent .failure = "answering_question" := by
  refine ⟨fun h1 => ?_, fun h1 h2 => ?_, fun h1 h2 h3 => ?_,
    fun h1 h2 h3 h4 => ?_, rfl⟩
  · simp [analyze_intent, h1]
  · simp [analyze_intent, h1, h2]
  · rcases h3 with h3 | h3 <;> simp [analyze_intent, h1, h2, h3]
  · simp [analyze_intent, h1, h2, h3, h4]

/-- Claim C6 witness: a reply mentioning `asking` classifies as
`asking_question` even though it is neither stripped nor lowercased. -/
theorem claim_C6_witness :
    analyze_intent (LLMResult.ok "  The user is ASKING something ")
      = "asking_question" :=
  (claim_C6 "  The user is ASKING something ").1 (by decide)

/-! ## Evaluation parsing (`LLMEvaluator.evaluate_answer` and
`LLMEvaluator._create_fallback_evaluation`, src/llm_evaluator.py) -/

/-- The JSON object fields expected by the evaluation parser, as decoded
by `json.loads` before model validation. -/
structure EvalData where
  score : Int
  feedback : String
  suggestions : String
  follow_up : Option String
  strengths : List String
  weaknesses : List String

/-- The `EvaluationResult` pydantic model: `score` is constrained to
1–10. -/
structure EvaluationResult where
  score : Int
  feedback : String
  suggestions : String
  follow_up : Option String
  strengths : List String
  weaknesses : List String

/-- Model validation `EvaluationResult(**evaluation_data)`: fails (raising
out of the JSON-decode handler, caught by the outer handler which yields
`None`) when the score is out of range. -/
def mkEvaluationResult (d : EvalData) : Option EvaluationResult :=
  if 1 ≤ d.score ∧ d.score ≤ 10 then
    some ⟨d.score, d.feedback, d.suggestions, d.follow_up, d.strengths, d.weaknesses⟩
  else none

/-- Python `len(s.split())`: the number of maximal nonempty
whitespace-separated runs. -/
def countWords (l : List Char) : Nat :=
  (l.foldl
    (fun (st : Nat × Bool) c =>
      if c.isWhitespace then (st.1, false)
      else if st.2 then st else (st.1 + 1, true))
    (0, false)).1

/-- Python character slice `s[:n]`. -/
def pySlice (n : Nat) (s : String) : String :=
  String.mk (s.data.take n)

/-- `LLMEvaluator._create_fallback_evaluation`: rough score
`min(max(len(user_answer.split()) // 5, 1), 10)` and feedback quoting the
first 200 characters of the raw reply. -/
def create_fallback_evaluation (user_answer llm_response : String) :
    EvaluationResult :=
  { score := ((min (max (countWords user_answer.data / 5) 1) 10 : Nat) : Int)
    feedback := "Evaluation completed. " ++ pySlice 200 llm_response ++ "..."
    suggestions := "Please provide more detailed explanations and examples."
    follow_up := none
    strengths := ["Provided an answer"]
    weaknesses := ["Could be more detailed"] }

/-- `LLMEvaluator.evaluate_answer`, after the external call returned
`response_text`: `parsed` is the result of `json.loads` (`none` models
`json.JSONDecodeError`, which is answered with the fallback evaluation);
a successfully decoded object still passes model validation. -/
def evaluate_answer (user_answer response_text : String)
    (parsed : Option EvalData) : Option EvaluationResult :=
  match parsed with
  | some d => mkEvaluationResult d
  | none => some (create_fallback_evaluation user_answer response_text)

/-! ### Claim C7 -/

/-- Claim C7: whenever the raw reply fails JSON parsing,
`evaluate_answer` returns the fallback evaluation — never a failure —
whose score lies in `[1, 10]` and whose feedback contains the first 200
characters of the raw reply. -/
theorem claim_C7 (user_answer response_text : String) :
    ∃ fb, evaluate_answer user_answer response_text none = some fb
      ∧ 1 ≤ fb.score ∧ fb.score ≤ 10
      ∧ ∃ pre post, fb.feedback = pre ++ pySlice 200 response_text ++ post := by
  refine ⟨create_fallback_evaluation user_answer response_text, rfl, ?_, ?_,
    "Evaluation completed. ", "...", rfl⟩
  · show (1 : Int) ≤ ((min (max (countWords user_answer.data / 5) 1) 10 : Nat) : Int)
    have h : 1 ≤ min (max (countWords user_answer.data / 5) 1) 10 :=
      le_min (le_max_right _ _) (by norm_num)
    exact_mod_cast h
  · show ((min (max (countWords user_answer.data / 5) 1) 10 : Nat) : Int) ≤ 10
    have h : min (max (countWords user_answer.data / 5) 1) 10 ≤ 10 :=
      min_le_right _ _
    exact_mod_cast h

/-! ## Question manager (`src/question_manager.py`) -/

/-- The `Question` pydantic model of `question_manager.py`. -/
structure Question where
  id : String
  text : String
  topic : String
  difficulty : Int
  expected_answer : String
  follow_up_questions : List String
deriving DecidableEq

/-- A question record as decoded from JSON, before model validation (all
fields present and well-typed; `json.JSONDecodeError` and shape errors
are outside this model). -/
structure RawQuestion where
  id : String
  text : String
  topic : String
  difficulty : Int
  expected_answer : String
  follow_up_questions : List String
deriving DecidableEq

/-- `QuestionManager.load_questions`: `QuestionBank(**data)` validates
every record against the `Question` model — the only value constraint is
`difficulty = Field(ge=1, le=5)` — and the load fails (returns `False`,
here `none`) exactly when pydantic validation raises; on success
`self.questions` receives the corresponding `Question` records. -/
def load_questions (data : List RawQuestion) : Option (List Question) :=
  if data.all (fun r => decide (1 ≤ r.difficulty) && decide (r.difficulty ≤ 5)) then
    some (data.map (fun r =>
      ⟨r.id, r.text, r.topic, r.difficulty, r.expected_answer,
       r.follow_up_questions⟩))
  else none

/-- `QuestionManager.validate_question_bank`: nonempty bank, no duplicate
ids (`len(ids) == len(set(ids))`, via `dedup`), and per question nonempty
stripped text, nonempty stripped expected answer, and difficulty within
1–5. -/
def validate_question_bank (qs : List Question) : Bool :=
  if qs.isEmpty then false
  else if (qs.map (fun q => q.id)).dedup.length != (qs.map (fun q => q.id)).length
    then false
  else qs.all (fun q =>
    !(pyStrip q.text == "") && !(pyStrip q.expected_answer == "")
      && decide (1 ≤ q.difficulty) && decide (q.difficulty ≤ 5))

/-- The mutable state of a `QuestionManager`: the loaded bank and the used
question ids. -/
structure QMState where
  questions : List Question
  used_questions : List String
deriving DecidableEq

/-- `QuestionManager.filter_questions`: filter by topics (skipped for an
empty/absent topic list, Python `if topics:`), by exact difficulty
(skipped for `None`), and optionally drop already-used ids. -/
def filter_questions (st : QMState) (topics : List String)
    (difficulty : Option Int) (exclude_used : Bool) : List Question :=
  let f2 := if topics.isEmpty then st.questions
            else st.questions.filter (fun q => topics.contains q.topic)
  let f3 := match difficulty with
            | some d => f2.filter (fun q => q.difficulty == d)
            | none => f2
  if exclude_used then f3.filter (fun q => !(st.used_questions.contains q.id))
  else f3

/-- `QuestionManager.select_question`: pick from the filtered available
questions and append the chosen id to `used_questions`; `none` when no
question matches.  The external `random.choice` is modelled by the index
`k` (any `k` for the random path, `k = 0` for the deterministic
first-element path). -/
def select_question (k : Nat) (st : QMState) (topics : List String)
    (difficulty : Option Int) : Option Question × QMState :=
  if h : filter_questions st topics difficulty true = [] then (none, st)
  else
    let avail := filter_questions st topics difficulty true
    let q := avail.get ⟨k % avail.length, Nat.mod_lt _ (List.length_pos.mpr h)⟩
    (some q, { st with used_questions := st.used_questions ++ [q.id] })

/-- A sequence of `select_question` calls (each with its chooser index,
topic list and difficulty), collecting the returned questions. -/
def select_run (st : QMState) :
    List (Nat × List String × Option Int) → List Question × QMState
  | [] => ([], st)
  | (k, tp, df) :: rest =>
    let step := select_question k st tp df
    let tail := select_run step.2 rest
    match step.1 with
    | none => tail
    | some q => (q :: tail.1, tail.2)

/-! ### Lemmas about the question manager -/

/-- Filtering with `exclude_used` is the used-id filter applied on top of
the same filters without it. -/
theorem filter_questions_exclude_eq (st : QMState) (tp : List String)
    (df : Option Int) :
    filter_questions st tp df true
      = (filter_questions st tp df false).filter
          (fun q => !(st.used_questions.contains q.id)) := by
  simp [filter_questions]

/-- Every question surviving the `exclude_used` filter has an unused
id. -/
theorem filter_questions_exclude (st : QMState) (tp : List String)
    (df : Option Int) :
    ∀ q ∈ filter_questions st tp df true, q.id ∉ st.used_questions := by
  intro q hq
  rw [filter_questions_exclude_eq] at hq
  have h2 := (List.mem_filter.mp hq).2
  simpa using h2

/-- A `select_question` call that returns no question leaves the state
untouched. -/
theorem select_question_none_state (k : Nat) (st : QMState) (tp : List String)
    (df : Option Int) (h : (select_question k st tp df).1 = none) :
    (select_question k st tp df).2 = st := by
  unfold select_question at h ⊢
  by_cases hav : filter_questions st tp df true = []
  · rw [dif_pos hav]
  · rw [dif_neg hav] at h
    simp at h

/-- Anatomy of a successful `select_question` call: the returned question
comes from the exclude-used filter, its id was unused, and it is appended
to `used_questions` while the bank is untouched. -/
theorem select_question_some (k : Nat) (st : QMState) (tp : List String)
    (df : Option Int) (q : Question) (st' : QMState)
    (h : select_question k st tp df = (some q, st')) :
    q ∈ filter_questions st tp df true
    ∧ q.id ∉ st.used_questions
    ∧ st'.used_questions = st.used_questions ++ [q.id]
    ∧ st'.questions = st.questions := by
  unfold select_question at h
  by_cases hav : filter_questions st tp df true = []
  · rw [dif_pos hav] at h
    exact absurd (congrArg Prod.fst h) (by simp)
  · rw [dif_neg hav] at h
    injection h with h1 h2
    injection h1 with hq
    subst hq
    refine ⟨List.get_mem _ _ _,
      filter_questions_exclude st tp df _ (List.get_mem _ _ _), ?_, ?_⟩
    · rw [← h2]
    · rw [← h2]

/-- Once every question matching the topic/difficulty filters has a used
id, `select_question` returns `none`. -/
theorem select_question_none_of_all_used (k : Nat) (st : QMState)
    (tp : List String) (df : Option Int)
    (h : ∀ q ∈ filter_questions st tp df false, q.id ∈ st.used_questions) :
    (select_question k st tp df).1 = none := by
  have hav : filter_questions st tp df true = [] := by
    rw [filter_questions_exclude_eq, List.filter_eq_nil_iff]
    intro q hq
    simpa using h q hq
  unfold select_question
  rw [dif_pos hav]

/-- Along a run of `select_question` calls, every returned question has an
id that was unused at the start, and the returned ids are pairwise
distinct. -/
theorem select_run_spec (calls : List (Nat × List String × Option Int)) :
    ∀ st : QMState,
      (∀ q ∈ (select_run st calls).1, q.id ∉ st.used_questions)
      ∧ ((select_run st calls).1.map (fun q => q.id)).Nodup := by
  induction calls with
  | nil =>
    intro st
    exact ⟨fun q hq => by simp [select_run] at hq, by simp [select_run]⟩
  | cons c rest ih =>
    obtain ⟨k, tp, df⟩ := c
    intro st
    rcases hsel : select_question k st tp df with ⟨o, st'⟩
    cases o with
    | none =>
      have hst : st' = st := by
        have h1 : (select_question k st tp df).1 = none := by rw [hsel]
        have := select_question_none_state k st tp df h1
        rw [hsel] at this
        exact this
      simp only [select_run, hsel]
      rw [hst]
      exact ih st
    | some q =>
      obtain ⟨hmem, hnotused, hused', hqs'⟩ :=
        select_question_some k st tp df q st' hsel
      simp only [select_run, hsel]
      obtain ⟨ih1, ih2⟩ := ih st'
      constructor
      · intro p hp
        rcases List.mem_cons.mp hp with rfl | hp'
        · exact hnotused
        · have hp2 := ih1 p hp'
          rw [hused'] at hp2
          intro hc
          exact hp2 (List.mem_append_left _ hc)
      · simp only [List.map_cons, List.nodup_cons]
        refine ⟨?_, ih2⟩
        intro hmemid
        obtain ⟨p, hp, hpid⟩ := List.mem_map.mp hmemid
        have hp2 := ih1 p hp
        rw [hused'] at hp2
        exact hp2 (by rw [hpid]; exact List.mem_append_right _ (by simp))

/-- The load fails exactly when some record has an out-of-range
difficulty (within this well-typed model of the pydantic check). -/
theorem load_questions_eq_none_iff (data : List RawQuestion) :
    load_questions data = none
      ↔ ∃ r ∈ data, ¬(1 ≤ r.difficulty ∧ r.difficulty ≤ 5) := by
  unfold load_questions
  cases h : data.all (fun r => decide (1 ≤ r.difficulty) && decide (r.difficulty ≤ 5)) with
  | true =>
    rw [if_pos rfl]
    constructor
    · intro habs
      exact absurd habs (by simp)
    · rintro ⟨r, hr, hbad⟩
      have hall := List.all_eq_true.mp h r hr
      simp only [Bool.and_eq_true, decide_eq_true_eq] at hall
      exact absurd hall hbad
  | false =>
    rw [if_neg (by simp)]
    refine ⟨fun _ => ?_, fun _ => rfl⟩
    have := List.all_eq_false.mp h
    obtain ⟨r, hr, hbad⟩ := this
    refine ⟨r, hr, fun hc => ?_⟩
    simp only [Bool.and_eq_true, decide_eq_true_eq, not_and_or] at hbad
    rcases hbad with hb | hb
    · exact hb (by simpa using hc.1)
    · exact hb (by simpa using hc.2)

/-- Characterisation of `validate_question_bank`: nonempty bank, distinct
ids, nonempty stripped text and expected answer, difficulty in range. -/
theorem validate_question_bank_iff (qs : List Question) :
    validate_question_bank qs = true ↔
      qs ≠ [] ∧ (qs.map (fun q => q.id)).Nodup
      ∧ ∀ q ∈ qs, pyStrip q.text ≠ "" ∧ pyStrip q.expected_answer ≠ ""
          ∧ 1 ≤ q.difficulty ∧ q.difficulty ≤ 5 := by
  unfold validate_question_bank
  by_cases h0 : qs.isEmpty
  · rw [if_pos h0]
    have : qs = [] := List.isEmpty_iff.mp h0
    subst this
    simp
  · rw [if_neg h0]
    have hne : qs ≠ [] := by
      intro h
      exact h0 (by simp [h])
    by_cases hdup :
        ((qs.map (fun q => q.id)).dedup.length != (qs.map (fun q => q.id)).length)
          = true
    · rw [if_pos hdup]
      have hnodup : ¬ (qs.map (fun q => q.id)).Nodup := by
        intro hn
        have hd : (qs.map (fun q => q.id)).dedup = qs.map (fun q => q.id) :=
          List.dedup_eq_self.mpr hn
        simp [hd] at hdup
      constructor
      · intro habs
        exact absurd habs (by simp)
      · rintro ⟨-, hn, -⟩
        exact absurd hn hnodup
    · rw [if_neg hdup]
      have hlen : (qs.map (fun q => q.id)).dedup.length
          = (qs.map (fun q => q.id)).length := by
        simp only [bne_iff_ne, ne_eq, not_not] at hdup
        exact hdup
      have hnodup : (qs.map (fun q => q.id)).Nodup :=
        List.dedup_eq_self.mp
          ((List.dedup_sublist (qs.map (fun q => q.id))).eq_of_length hlen)
      simp only [List.all_eq_true, Bool.and_eq_true, decide_eq_true_eq]
      constructor
      · intro hall
        refine ⟨hne, hnodup, fun q hq => ?_⟩
        obtain ⟨⟨⟨ht, ha⟩, hd1⟩, hd2⟩ := hall q hq
        exact ⟨by simpa using ht, by simpa using ha, hd1, hd2⟩
      · rintro ⟨-, -, hall⟩ q hq
        obtain ⟨ht, ha, hd1, hd2⟩ := hall q hq
        exact ⟨⟨⟨by simpa using ht, by simpa using ha⟩, hd1⟩, hd2⟩

/-! ### Claim C9 -/

/-- A well-formed record repeated twice: duplicate ids. -/
def rawDup : RawQuestion :=
  ⟨"q1", "What is a closure?", "programming", 3,
   "A function with captured scope.", []⟩

/-- The `Question` produced from `rawDup`. -/
def qDup : Question :=
  ⟨"q1", "What is a closure?", "programming", 3,
   "A function with captured scope.", []⟩

/-- Claim C9, counterexample: a bank with two identical ids passes
`load_questions` (the load succeeds), so duplicate ids are not rejected
by the load operation itself; only the separately invoked
`validate_question_bank` flags them. -/
theorem claim_C9_counterexample :
    load_questions [rawDup, rawDup] = some [qDup, qDup]
    ∧ validate_question_bank [qDup, qDup] = false := by
  constructor <;> rfl

/-- Claim C9 (amended): the load operation itself rejects exactly the
out-of-range difficulties (the only value constraint of the pydantic
model); duplicate ids and empty stripped text or expected answer pass the
load and are detected only by the separate `validate_question_bank`
check, which holds exactly for a nonempty bank with distinct ids,
nonempty stripped text and answer, and difficulty within 1–5. -/
theorem claim_C9 (data : List RawQuestion) :
    (load_questions data = none
      ↔ ∃ r ∈ data, ¬(1 ≤ r.difficulty ∧ r.difficulty ≤ 5))
    ∧ (∀ qs, load_questions data = some qs →
        (validate_question_bank qs = true ↔
          qs ≠ [] ∧ (qs.map (fun q => q.id)).Nodup
          ∧ ∀ q ∈ qs, pyStrip q.text ≠ "" ∧ pyStrip q.expected_answer ≠ ""
              ∧ 1 ≤ q.difficulty ∧ q.difficulty ≤ 5)) :=
  ⟨load_questions_eq_none_iff data, fun qs _ => validate_question_bank_iff qs⟩

/-- A valid single-question bank record. -/
def rawGood : RawQuestion :=
  ⟨"g1", "Explain lists.", "programming", 2, "A sequence type.", []⟩

/-- The `Question` produced from `rawGood`. -/
def qGood : Question :=
  ⟨"g1", "Explain lists.", "programming", 2, "A sequence type.", []⟩

/-- Claim C9 witness: loading the valid single-question bank succeeds and
it validates. -/
theorem claim_C9_witness : validate_question_bank [qGood] = true :=
  ((claim_C9 [rawGood]).2 [qGood] (by decide)).mpr (by decide)

/-! ### Claim C10 -/

/-- Claim C10: a successful `select_question` returns a question whose id
was unused and appends it to `used_questions` without touching the bank;
the `exclude_used` filter omits every used id; once all questions
matching the topic/difficulty filters are used, selection returns
`none`; and along any sequence of `select_question` calls the returned
question ids are pairwise distinct. -/
theorem claim_C10 (st : QMState) (k : Nat) (topics : List String)
    (difficulty : Option Int) (calls : List (Nat × List String × Option Int)) :
    (∀ q st', select_question k st topics difficulty = (some q, st') →
        q.id ∉ st.used_questions
        ∧ st'.used_questions = st.used_questions ++ [q.id]
        ∧ st'.questions = st.questions)
    ∧ (∀ q ∈ filter_questions st topics difficulty true,
        q.id ∉ st.used_questions)
    ∧ ((∀ q ∈ filter_questions st topics difficulty false,
          q.id ∈ st.used_questions) →
        (select_question k st topics difficulty).1 = none)
    ∧ ((select_run st calls).1.map (fun q => q.id)).Nodup := by
  refine ⟨?_, filter_questions_exclude st topics difficulty,
    select_question_none_of_all_used k st topics difficulty,
    (select_run_spec calls st).2⟩
  intro q st' h
  obtain ⟨-, h2, h3, h4⟩ := select_question_some k st topics difficulty q st' h
  exact ⟨h2, h3, h4⟩

/-- Question used by the C10 witness. -/
def qW : Question := ⟨"w1", "Describe sets.", "programming", 3, "A container.", []⟩

/-- Fresh manager state holding `qW` with nothing used. -/
def stW : QMState := ⟨[qW], []⟩

/-- Claim C10 witness: selecting from the fresh one-question state marks
`w1` as used and leaves the bank unchanged. -/
theorem claim_C10_witness :
    qW.id ∉ stW.used_questions
    ∧ (QMState.mk [qW] ["w1"]).used_questions = stW.used_questions ++ [qW.id]
    ∧ (QMState.mk [qW] ["w1"]).questions = stW.questions :=
  (claim_C10 stW 0 [] none []).1 qW (QMState.mk [qW] ["w1"]) (by decide)

/-! ## Session logger summary (`SessionLogger._generate_session_summary`,
src/session_logger.py)

One record per question; the scalar summary fields are modelled (the
per-topic breakdown, the two-decimal rounding and the wall-clock duration
field are not observed by the registry claims and are omitted). -/

/-- The per-question record fields read by the summary generator. -/
structure QuestionRecord where
  question_topic : String
  llm_score : Option ℚ
  follow_up_question : Option String
  follow_up_answer : Option String
deriving DecidableEq

/-- The `SessionLogger` session data read by `end_session`. -/
structure LoggerState where
  questions_asked : List QuestionRecord
deriving DecidableEq

/-- The `score_statistics` dictionary (empty when no answer was
scored). -/
structure ScoreStats where
  average : ℚ
  highest : ℚ
  lowest : ℚ
  total_evaluated : Nat
deriving DecidableEq

/-- `_generate_session_summary`: either the no-questions error dictionary
or the statistics dictionary. -/
inductive Summary where
  | noQuestions
  | stats (questions_asked questions_evaluated : Nat)
      (score_statistics : Option ScoreStats) (performance_level : String)
      (follow_ups_generated follow_ups_answered : Nat)
deriving DecidableEq

/-- The performance level thresholds of `_generate_session_summary`. -/
def performance_level (avg : ℚ) : String :=
  if 8 ≤ avg then "Excellent"
  else if 6 ≤ avg then "Good"
  else if 4 ≤ avg then "Average"
  else "Needs Improvement"

/-- `SessionLogger._generate_session_summary` on the logger state.  A
follow-up question or answer counts when present and nonempty (Python
truthiness of the stored string). -/
def generate_session_summary (ls : LoggerState) : Summary :=
  if ls.questions_asked.isEmpty then .noQuestions
  else
    let scores := ls.questions_asked.filterMap (fun qr => qr.llm_score)
    let avg : ℚ := if scores.isEmpty then 0 else scores.sum / scores.length
    let score_statistics : Option ScoreStats :=
      if scores.isEmpty then none
      else some ⟨avg, (scores.max?).getD 0, (scores.min?).getD 0,
                 scores.length⟩
    .stats ls.questions_asked.length scores.length score_statistics
      (performance_level avg)
      (ls.questions_asked.countP
        (fun qr => (qr.follow_up_question.getD "") != ""))
      (ls.questions_asked.countP
        (fun qr => (qr.follow_up_answer.getD "") != ""))

/-! ## WebSocket session registry (`web_server.py`,
`WebSocketInterviewServer`)

`active_sessions` is a dictionary from session id to the per-session
data; it is modelled as an association list with the dictionary
operations `get` (first match) and `del` (remove the key).  The fields of
a session entry that the modelled handlers read are kept; the conversation
history payload of the `end_session` response is not modelled. -/

/-- One entry of `active_sessions`. -/
structure Session where
  logr : LoggerState
  ai_state : ConversationState
  topics : List String
  difficulty : Option Int
  interview_duration : ℚ
deriving DecidableEq

/-- Outbound message of the modelled handlers, by tag. -/
inductive Response where
  | error (message : String)
  | session_ended (summary : Summary)
  | ai_conversation (kind : RespKind) (transcript : String)
  | interview_complete
deriving DecidableEq

/-- `AIConversationManager.process_user_speech`: dispatch on the
classified intent.  The guidance/clarification handlers leave the
conversation state unchanged (the exchange history is not modelled);
answers — and the default branch — go through `_handle_answer`. -/
def process_user_speech (intentReply decisionReply : LLMResult)
    (genText _transcript : String) (s : ConversationState) :
    ConversationState × RespKind :=
  match analyze_intent intentReply with
  | "asking_question" => (s, .guidance)
  | "seeking_clarification" =>
    match s.current_question with
    | none => generate_first_question genText s
    | some _ => (s, .clarification)
  | "confused_or_stuck" => (s, .guidance)
  | _ => handle_answer (should_follow_up decisionReply) genText s

/-- `WebSocketInterviewServer.process_audio`: unknown session ids are
answered with the error response before anything is touched; otherwise
the external transcription result, the interview clock, and the
conversational step determine the reply, and only the addressed session's
entry is updated. -/
def process_audio (reg : List (String × Session)) (sid : String)
    (transcript : Option String) (elapsed : ℚ)
    (intentReply decisionReply : LLMResult) (genText : String) :
    Response × List (String × Session) :=
  match reg.lookup sid with
  | none => (.error "Session not found", reg)
  | some sess =>
    match transcript with
    | none => (.error "Failed to transcribe audio", reg)
    | some t =>
      if should_end_interview sess.interview_duration elapsed then
        (.interview_complete, reg)
      else
        let step := process_user_speech intentReply decisionReply genText t
          sess.ai_state
        (.ai_conversation step.2 t,
         reg.map (fun p =>
           if p.1 == sid then (p.1, { sess with ai_state := step.1 }) else p))

/-- `WebSocketInterviewServer.end_session`: unknown session ids are
answered with the error response; otherwise the logger seals the session,
the summary is returned, and the entry is deleted from
`active_sessions`. -/
def end_session (reg : List (String × Session)) (sid : String) :
    Response × List (String × Session) :=
  match reg.lookup sid with
  | none => (.error "Session not found", reg)
  | some sess =>
    (.session_ended (generate_session_summary sess.logr),
     reg.filter (fun p => !(p.1 == sid)))

/-- Deleting a key from the registry makes its lookup fail. -/
theorem lookup_filter_self (reg : List (String × Session)) (sid : String) :
    (reg.filter (fun p => !(p.1 == sid))).lookup sid = none := by
  induction reg with
  | nil => rfl
  | cons p rest ih =>
    obtain ⟨k, v⟩ := p
    by_cases hb : k = sid
    · subst hb
      have hdrop : ((k, v) :: rest).filter (fun p => !(p.1 == k))
          = rest.filter (fun p => !(p.1 == k)) := by
        simp [List.filter_cons]
      rw [hdrop]
      exact ih
    · have hfk : (!((k, v).1 == sid)) = true := by simp [hb]
      have hsk : (sid == k) = false :=
        beq_eq_false_iff_ne.mpr (fun hx => hb hx.symm)
      rw [List.filter_cons, if_pos hfk]
      simp only [List.lookup, hsk]
      exact ih

/-! ### Claim C8 -/

/-- Claim C8: a `process_audio` message naming a session id absent from
`active_sessions` is answered with the error response and the registry is
returned unchanged — no entry is added, removed or mutated. -/
theorem claim_C8 (reg : List (String × Session)) (sid : String)
    (transcript : Option String) (elapsed : ℚ)
    (intentReply decisionReply : LLMResult) (genText : String)
    (h : reg.lookup sid = none) :
    process_audio reg sid transcript elapsed intentReply decisionReply genText
      = (Response.error "Session not found", reg) := by
  unfold process_audio
  rw [h]

/-- Claim C8 witness: submitting audio for `s1` against an empty registry
errors out and leaves the registry empty. -/
theorem claim_C8_witness :
    process_audio [] "s1" (some "hello") 0 LLMResult.failure LLMResult.failure
        "next question"
      = (Response.error "Session not found", []) :=
  claim_C8 [] "s1" (some "hello") 0 LLMResult.failure LLMResult.failure
    "next question" rfl

/-! ### Claim C3 -/

/-- A session whose logger holds one scored question. -/
def sessC3 : Session :=
  { logr := ⟨[⟨"programming", some 7, none, none⟩]⟩
    ai_state := ConversationState.init
    topics := ["programming"]
    difficulty := some 3
    interview_duration := 30 }

/-- A registry holding exactly the session `s1`. -/
def regC3 : List (String × Session) := [("s1", sessC3)]

/-- Claim C3, counterexample: the first `end_session` for `s1` returns the
summary and deletes the entry, so the second `end_session` for the same
id returns the `Session not found` error — not the previously computed
summary, and with a different response than the first call.  Ending twice
is therefore not idempotent in the claimed sense. -/
theorem claim_C3_counterexample :
    (end_session regC3 "s1").1
      = Response.session_ended (generate_session_summary sessC3.logr)
    ∧ end_session (end_session regC3 "s1").2 "s1"
      = (Response.error "Session not found", (end_session regC3 "s1").2)
    ∧ (end_session (end_session regC3 "s1").2 "s1").1
      ≠ (end_session regC3 "s1").1 := by
  refine ⟨rfl, rfl, ?_⟩
  decide

/-- Claim C3 (amended): the first `end_session` for a registered id
returns the computed summary and removes the entry from
`active_sessions`; a second call for the same id therefore finds no
session and returns the `Session not found` error response (leaving the
registry unchanged) instead of the previously computed summary. -/
theorem claim_C3 (reg : List (String × Session)) (sid : String) (sess : Session)
    (h : reg.lookup sid = some sess) :
    end_session reg sid
      = (Response.session_ended (generate_session_summary sess.logr),
         reg.filter (fun p => !(p.1 == sid)))
    ∧ (end_session reg sid).2.lookup sid = none
    ∧ end_session (end_session reg sid).2 sid
      = (Response.error "Session not found", (end_session reg sid).2) := by
  have h1 : end_session reg sid
      = (Response.session_ended (generate_session_summary sess.logr),
         reg.filter (fun p => !(p.1 == sid))) := by
    unfold end_session
    rw [h]
  have h2 : (end_session reg sid).2.lookup sid = none := by
    rw [h1]
    exact lookup_filter_self reg sid
  refine ⟨h1, h2, ?_⟩
  have hnone :
      ∀ (r : List (String × Session)), r.lookup sid = none →
        end_session r sid = (Response.error "Session not found", r) := by
    intro r hr
    unfold end_session
    rw [hr]
  exact hnone _ h2

/-- Claim C3 witness: after ending `s1` its registry entry is gone. -/
theorem claim_C3_witness : (end_session regC3 "s1").2.lookup "s1" = none :=
  (claim_C3 regC3 "s1" sessC3 rfl).2.1

end AIInterviewer
